import Mathlib

/-!
Shallow embedding of the FuX agent-plan executor
(`src/unnamed/part_000` / `src/App.tsx`, `handleCommand`, case `/agent`)
and of the plan-validation logic of `createExecutionPlan`
(`src/services/geminiService.ts`).

Strings are modelled by Lean `String` / `List Char`; the JS
`Record<string, any>` step-output map, which the driver populates with the
consecutive integer keys 0, 1, 2, ..., is modelled by a `List (Option String)`
indexed by position (`none` models a stored `null`; an out-of-range index
models an absent key, i.e. JS `undefined`).  Fallible JS code (a `throw`)
is modelled by `Except String`, the error component being the thrown
message.  External tool back-ends (vMix, Blender, the generative-model
HTTP calls, plugin code execution) are modelled by an explicit environment
of functions, since their bodies are I/O wrappers outside this core.
-/

namespace FuX

/-- One planned tool invocation (`interface AgentStep` in
`src/services/geminiService.ts`): free-text rationale, tool name, and a
single argument string possibly containing placeholder tokens. -/
structure AgentStep where
  thought : String
  tool : String
  args : String
deriving Repr, DecidableEq

/-- A tool contributed by an ingested plugin (`interface ToolDefinition`,
`src/services/geminiService.ts`).  Only `name` and `description` are read
by the code modelled here; the JSON-schema `parameters` field is used
solely for prompt construction. -/
structure ToolDefinition where
  name : String
  description : String
deriving Repr, DecidableEq

/-- An ingested plugin (`interface Plugin` in `src/unnamed/part_000`). -/
structure Plugin where
  power_name : String
  source : String
  code : String
  tools : List ToolDefinition
  category : String
  description : String
deriving Repr, DecidableEq

/-- A chat transcript entry: the `role` and `content` fields of the
`Message` objects passed to `addMessage`. -/
structure Msg where
  role : String
  content : String
deriving Repr, DecidableEq

/-- The per-run accumulator `stepOutputs`: position `i` holds the captured
output of step `i` (`none` models JS `null`). -/
abbrev StepOutputs := List (Option String)

/-- The opening brace character, written by code point to keep it out of
string literals. -/
def lbrace : Char := Char.ofNat 123

/-- The closing brace character. -/
def rbrace : Char := Char.ofNat 125

/-- The literal characters preceding the digit group in a placeholder
token: two braces then `step_`. -/
def tokenOpen : List Char := [lbrace, lbrace, 's', 't', 'e', 'p', '_']

/-- The literal characters following the digit group: `_output` then two
braces. -/
def tokenClose : List Char := ['_', 'o', 'u', 't', 'p', 'u', 't', rbrace, rbrace]

/-- Match a literal character sequence at the head of the input, returning
the remainder on success. -/
def stripLit : List Char → List Char → Option (List Char)
  | [], cs => some cs
  | _ :: _, [] => none
  | l :: ls, c :: cs => if c = l then stripLit ls cs else none

/-- Greedy match of the regular expression
`\x7b\x7bstep_(\d+)_output\x7d\x7d` at the head of the input, as the JS
regex engine does at each scan position: the literal opening, a maximal
nonempty digit run, then the literal closing.  Returns the captured digit
group and the input after the match. -/
def matchToken (cs : List Char) : Option (List Char × List Char) :=
  match stripLit tokenOpen cs with
  | none => none
  | some r1 =>
    let ds := r1.takeWhile Char.isDigit
    if ds.isEmpty then none
    else
      match stripLit tokenClose (r1.dropWhile Char.isDigit) with
      | none => none
      | some r2 => some (ds, r2)

/-- Numeric value of the captured digit group, as `parseInt(ds, 10)`
computes it on an all-digit string. -/
def digitsVal (ds : List Char) : Nat :=
  ds.foldl (fun a c => a * 10 + (c.toNat - 48)) 0

/-- The full text of a placeholder token with digit group `ds` (the JS
`match` argument of the replacement callback). -/
def tokenText (ds : List Char) : String :=
  String.mk (tokenOpen ++ ds ++ tokenClose)

/-- The message of the error thrown by the replacement callback when the
referenced output is absent or null (`src/unnamed/part_000` line 852). -/
def resolveErrMsg (ds : List Char) : String :=
  "Could not resolve placeholder " ++ tokenText ds ++ ". Output from step "
    ++ toString (digitsVal ds) ++ " not found or was null."

/-- Lookup `stepOutputs[idx]`, collapsing the JS distinction between an
absent key (`undefined`) and a stored `null` to `none`, exactly as the
guard `!== undefined && !== null` does. -/
def lookupOutput (outs : StepOutputs) (idx : Int) : Option String :=
  if idx < 0 then none else (outs.getD idx.toNat none)

theorem stripLit_length {ls cs r : List Char} (h : stripLit ls cs = some r) :
    ls.length + r.length = cs.length := by
  induction ls generalizing cs with
  | nil =>
    simp [stripLit] at h
    simp [h]
  | cons l ls ih =>
    cases cs with
    | nil => simp [stripLit] at h
    | cons c cs =>
      by_cases hc : c = l
      · simp [stripLit, hc] at h
        have := ih h
        simp [List.length_cons]
        omega
      · simp [stripLit, hc] at h

theorem dropWhile_length_le (p : Char → Bool) (l : List Char) :
    (l.dropWhile p).length ≤ l.length := by
  induction l with
  | nil => simp
  | cons c l ih =>
    by_cases hc : p c
    · simp [List.dropWhile, hc]
      omega
    · simp [List.dropWhile, hc]

theorem matchToken_length {cs ds rest : List Char}
    (h : matchToken cs = some (ds, rest)) : rest.length < cs.length := by
  unfold matchToken at h
  cases h1 : stripLit tokenOpen cs with
  | none => rw [h1] at h; simp at h
  | some r1 =>
    rw [h1] at h
    simp only at h
    by_cases he : (r1.takeWhile Char.isDigit).isEmpty
    · simp [he] at h
    · simp [he] at h
      cases h2 : stripLit tokenClose (r1.dropWhile Char.isDigit) with
      | none => rw [h2] at h; simp at h
      | some r2 =>
        rw [h2] at h
        simp at h
        obtain ⟨hds, hrest⟩ := h
        subst hrest
        have hl1 := stripLit_length h1
        have hl2 := stripLit_length h2
        have hd := dropWhile_length_le Char.isDigit r1
        have hopen : tokenOpen.length = 7 := by rfl
        have hclose : tokenClose.length = 9 := by rfl
        omega

/-- The scan-and-substitute pass of
`step.args.replace(placeholderRegex, cb)`: at each position, if the
placeholder pattern matches, look up the referenced output (captured
number, 1-based, minus one); substitute its string form on success, throw
on absence; otherwise keep the character and continue.  Substituted text
is not rescanned, matching the single pass of `String.prototype.replace`. -/
def resolveAux (outs : StepOutputs) : List Char → Except String (List Char)
  | [] => Except.ok []
  | c :: cs =>
    match hm : matchToken (c :: cs) with
    | some (ds, rest) =>
      match lookupOutput outs ((digitsVal ds : Int) - 1) with
      | some v => (resolveAux outs rest).map (fun r => v.toList ++ r)
      | none => Except.error (resolveErrMsg ds)
    | none => (resolveAux outs cs).map (fun r => c :: r)
termination_by cs => cs.length
decreasing_by
  · exact matchToken_length hm
  · simp

/-- Placeholder resolution of one argument string against the outputs
captured so far (`src/unnamed/part_000` lines 846-853). -/
def resolvePlaceholders (outs : StepOutputs) (s : String) : Except String String :=
  (resolveAux outs s.toList).map String.mk

/-- Whether the placeholder pattern matches anywhere in the input. -/
def containsToken : List Char → Bool
  | [] => false
  | c :: cs => (matchToken (c :: cs)).isSome || containsToken cs

/-- Split on runs of whitespace, as `resolvedArgs.split(/\s+/)` does:
separators are maximal whitespace runs, and a leading or trailing run
yields an empty first or last piece. -/
def splitWsAux : List Char → List Char → List String
  | [], cur => [String.mk cur.reverse]
  | c :: cs, cur =>
    if c.isWhitespace then
      String.mk cur.reverse :: splitWsAux (cs.dropWhile Char.isWhitespace) []
    else
      splitWsAux cs (c :: cur)
termination_by cs _ => cs.length
decreasing_by
  · have := dropWhile_length_le Char.isWhitespace cs
    simp
    omega
  · simp

/-- The JS `resolvedArgs.split(/\s+/)` applied by the dispatcher before
calling the vMix / video / spotify / twitch handlers. -/
def splitWs (s : String) : List String := splitWsAux s.toList []

/-- External back-ends reached by the dispatcher.  Each field models one
awaited call: `Except.error e` models the call throwing an error with
message `e`, `Except.ok` its successful result.  `blender` returns the
already-`JSON.stringify`-ed script result; `video` returns the pair
`(videoUrl, message)`; `search` returns the result text; `executeCode`
models `executeCode(plugin, toolName, args)` from
`src/services/geminiService.ts`. -/
structure ToolEnv where
  vmix : List String → Except String String
  blender : String → Except String String
  video : List String → Except String (String × String)
  spotify : List String → Except String String
  twitch : List String → Except String String
  generateImage : String → Except String String
  search : String → Except String String
  executeCode : Plugin → String → String → Except String String

/-- The flattening `plugins.flatMap(p => p.tools.map(t => (\x7b ...t, plugin: p \x7d)))`
performed by the dispatcher's default branch. -/
def allCustomTools (plugins : List Plugin) : List (ToolDefinition × Plugin) :=
  plugins.flatMap fun p => p.tools.map fun t => (t, p)

/-- The fallback lookup `allCustomTools.find(t => t.name === step.tool)`. -/
def findCustomTool (plugins : List Plugin) (tool : String) :
    Option (ToolDefinition × Plugin) :=
  (allCustomTools plugins).find? fun tp => tp.1.name == tool

/-- The `switch (step.tool)` of `src/unnamed/part_000` lines 857-918:
maps the step's tool name and already-resolved argument string to the
captured output (`none` when `currentStepOutput` stays `null`) and the
transcript messages the branch emits; `Except.error` models a thrown
error reaching the surrounding `catch`. -/
def dispatchStep (env : ToolEnv) (plugins : List Plugin)
    (tool resolvedArgs : String) : Except String (Option String × List Msg) :=
  if tool = "vmix" then
    match env.vmix (splitWs resolvedArgs) with
    | Except.ok m => Except.ok (none, [⟨"system_core", m⟩])
    | Except.error e => Except.error ("Agent vMix command failed: " ++ e)
  else if tool = "blender" then
    match env.blender resolvedArgs with
    | Except.ok out => Except.ok (some out, [⟨"system_core", "Blender script result:\n" ++ out⟩])
    | Except.error e => Except.error e
  else if tool = "video" then
    match env.video (splitWs resolvedArgs) with
    | Except.ok vr => Except.ok (some vr.1, [⟨"system_core", "Video command successful: " ++ vr.2⟩])
    | Except.error e => Except.error e
  else if tool = "spotify" then
    match env.spotify (splitWs resolvedArgs) with
    | Except.ok r => Except.ok (some r, [⟨"system_core", r⟩])
    | Except.error e => Except.error e
  else if tool = "twitch" then
    match env.twitch (splitWs resolvedArgs) with
    | Except.ok r => Except.ok (some r, [⟨"system_core", r⟩])
    | Except.error e => Except.error e
  else if tool = "generateImage" then
    match env.generateImage resolvedArgs with
    | Except.ok b64 =>
      Except.ok (some ("data:image/png;base64," ++ b64),
        [⟨"fux", "Image generated for: \"" ++ resolvedArgs ++ "\""⟩])
    | Except.error e => Except.error e
  else if tool = "search" then
    match env.search resolvedArgs with
    | Except.ok text => Except.ok (some text, [⟨"fux", text⟩])
    | Except.error e => Except.error e
  else if tool = "finalAnswer" then
    Except.ok (none, [⟨"fux", resolvedArgs⟩])
  else
    match findCustomTool plugins tool with
    | some tp =>
      match env.executeCode tp.2 tool resolvedArgs with
      | Except.ok r => Except.ok (some r, [⟨"system_core", "Tool " ++ tool ++ " result: " ++ r⟩])
      | Except.error e => Except.error e
    | none => Except.error ("Unknown tool specified by agent: " ++ tool)

/-- Whether a name is one of the built-in `case` labels of the dispatch
switch. -/
def isBuiltinTool (tool : String) : Bool :=
  tool == "vmix" || tool == "blender" || tool == "video" || tool == "spotify"
    || tool == "twitch" || tool == "generateImage" || tool == "search"
    || tool == "finalAnswer"

/-- The progress entry `[STEP i+1/N] Executing: <tool>` emitted before a
step runs. -/
def progressEntry (i total : Nat) (tool : String) : Msg :=
  ⟨"system_core", "[STEP " ++ toString (i + 1) ++ "/" ++ toString total
      ++ "] Executing: " ++ tool⟩

/-- The completion marker emitted after the loop. -/
def completedEntry : Msg := ⟨"system_core", "AGENT MODE: COMPLETED."⟩

/-- The single failure entry emitted by the surrounding `catch`. -/
def failEntry (e : String) : Msg :=
  ⟨"system_core", "AGENT MODE: FAILED. Error: " ++ e⟩

/-- Result of a plan run: the transcript messages emitted by the loop and
its `catch`, the final `stepOutputs` accumulator, and whether the run
ended in the `catch`. -/
structure RunResult where
  transcript : List Msg
  outputs : StepOutputs
  failed : Bool
deriving Repr, DecidableEq

/-- The `for (const [index, step] of plan.entries())` driver loop together
with its surrounding `try`/`catch`, starting from an accumulator that
already holds the outputs of the steps executed so far (the current index
is `outs.length`, as keys are assigned consecutively).  Each iteration
emits the progress entry, resolves placeholders, dispatches, and appends
the captured output; the first error stops the recursion and appends the
single failure entry; an exhausted plan appends the completion marker. -/
def execSteps (env : ToolEnv) (plugins : List Plugin) (total : Nat) :
    List AgentStep → StepOutputs → RunResult
  | [], outs => ⟨[completedEntry], outs, false⟩
  | step :: rest, outs =>
    let pm := progressEntry outs.length total step.tool
    match resolvePlaceholders outs step.args with
    | Except.error e => ⟨[pm, failEntry e], outs, true⟩
    | Except.ok resolved =>
      match dispatchStep env plugins step.tool resolved with
      | Except.error e => ⟨[pm, failEntry e], outs, true⟩
      | Except.ok (out, msgs) =>
        let r := execSteps env plugins total rest (outs ++ [out])
        ⟨pm :: msgs ++ r.transcript, r.outputs, r.failed⟩

/-- A whole `/agent` run over a freshly generated plan: empty accumulator,
`total = plan.length`. -/
def runPlan (env : ToolEnv) (plugins : List Plugin) (plan : List AgentStep) :
    RunResult :=
  execSteps env plugins plan.length plan []

/-- Run status of the small-step view of the driver loop. -/
inductive RunStatus where
  | running
  | completed
  | failed
deriving Repr, DecidableEq

/-- The mutable state visible to one iteration of the driver loop: the
plan being consumed (a `const` the loop only reads), the iteration cursor,
the `stepOutputs` accumulator, the transcript, and whether the loop has
finished or hit the `catch`. -/
structure LoopState where
  plan : List AgentStep
  idx : Nat
  stepOutputs : StepOutputs
  transcript : List Msg
  status : RunStatus
deriving Repr, DecidableEq

/-- One iteration of the driver loop as a state transformer: a finished
state is left unchanged; otherwise the step at the cursor (if any) is
executed exactly as in `execSteps`, writing only `idx`, `stepOutputs`,
`transcript` and `status`. -/
def loopStep (env : ToolEnv) (plugins : List Plugin) (s : LoopState) : LoopState :=
  match s.status with
  | RunStatus.completed => s
  | RunStatus.failed => s
  | RunStatus.running =>
    match s.plan.get? s.idx with
    | none =>
      { s with status := RunStatus.completed,
               transcript := s.transcript ++ [completedEntry] }
    | some step =>
      let pm := progressEntry s.idx s.plan.length step.tool
      match resolvePlaceholders s.stepOutputs step.args with
      | Except.error e =>
        { s with status := RunStatus.failed,
                 transcript := s.transcript ++ [pm, failEntry e] }
      | Except.ok resolved =>
        match dispatchStep env plugins step.tool resolved with
        | Except.error e =>
          { s with status := RunStatus.failed,
                   transcript := s.transcript ++ [pm, failEntry e] }
        | Except.ok (out, msgs) =>
          { s with idx := s.idx + 1,
                   stepOutputs := s.stepOutputs ++ [out],
                   transcript := s.transcript ++ pm :: msgs }

/-- A parsed JSON value, the result of `JSON.parse` on the model response
text (`createExecutionPlan`, `src/services/geminiService.ts`). -/
inductive JValue where
  | null
  | bool (b : Bool)
  | num (n : Int)
  | str (s : String)
  | arr (elems : List JValue)
  | obj (fields : List (String × JValue))

/-- JS property access `v[k]`: throws a `TypeError` on `null`, returns the
field of an object when present, and `undefined` (here the outer `none`)
on a primitive, an array, or a missing field. -/
def getProp : JValue → String → Except String (Option JValue)
  | JValue.null, _ => Except.error "TypeError: cannot read properties of null"
  | JValue.obj fields, k => Except.ok ((fields.find? fun f => f.1 == k).map Prod.snd)
  | _, _ => Except.ok none

/-- JS truthiness of a possibly-`undefined` value, as tested by
`if (parsed.plan && ...)`. -/
def truthy : Option JValue → Bool
  | none => false
  | some JValue.null => false
  | some (JValue.bool b) => b
  | some (JValue.num n) => !(n == 0)
  | some (JValue.str s) => !(s == "")
  | some (JValue.arr _) => true
  | some (JValue.obj _) => true

/-- The JS test `typeof x === 'string'`. -/
def isStr : Option JValue → Bool
  | some (JValue.str _) => true
  | _ => false

/-- The per-element check of `isValidPlan`:
`typeof step.thought === 'string' && typeof step.tool === 'string' &&
typeof step.args === 'string'`, with JS short-circuiting and with the
possibility that a property access itself throws (a `null` element). -/
def checkStep (v : JValue) : Except String Bool := do
  let th ← getProp v "thought"
  if isStr th then do
    let tl ← getProp v "tool"
    if isStr tl then do
      let ag ← getProp v "args"
      return isStr ag
    else
      return false
  else
    return false

/-- `parsed.plan.every(step => ...)` with short-circuiting and error
propagation. -/
def allSteps : List JValue → Except String Bool
  | [] => Except.ok true
  | v :: vs => do
    let b ← checkStep v
    if b then allSteps vs else return false

/-- Field extraction used when the validated plan is returned: on a
validated element each of `thought`, `tool`, `args` is a string. -/
def propStr (v : JValue) (k : String) : String :=
  match getProp v k with
  | Except.ok (some (JValue.str s)) => s
  | _ => ""

/-- Conversion of a validated plan element to an `AgentStep` (the JS code
returns the parsed objects themselves, typed `AgentStep[]`). -/
def toAgentStep (v : JValue) : AgentStep :=
  ⟨propStr v "thought", propStr v "tool", propStr v "args"⟩

/-- The body of the `try` block of `createExecutionPlan`
(`src/services/geminiService.ts` lines 238-249): require a truthy `plan`
property that is an array all of whose elements pass `checkStep`, and
otherwise throw `Invalid plan structure received from AI.` (an error the
surrounding `catch` replaces). -/
def planOfJson (parsed : JValue) : Except String (List AgentStep) := do
  let planProp ← getProp parsed "plan"
  if truthy planProp then
    match planProp with
    | some (JValue.arr steps) => do
      let ok ← allSteps steps
      if ok then
        return steps.map toAgentStep
      else
        Except.error "Invalid plan structure received from AI."
    | _ => Except.error "Invalid plan structure received from AI."
  else
    Except.error "Invalid plan structure received from AI."

/-- The message of the error `createExecutionPlan` throws from its
`catch` block. -/
def genericPlanErr : String := "The AI core failed to generate a valid execution plan."

/-- The response-validation portion of `createExecutionPlan`
(`src/services/geminiService.ts` lines 236-253).  The argument models
`JSON.parse(response.text.trim())`: `none` models a parse failure (a
thrown `SyntaxError`), `some v` the parsed value.  Any error thrown inside
the `try` block is caught and replaced by the single generic error. -/
def createExecutionPlan (parseResult : Option JValue) :
    Except String (List AgentStep) :=
  match parseResult with
  | none => Except.error genericPlanErr
  | some v =>
    match planOfJson v with
    | Except.ok p => Except.ok p
    | Except.error _ => Except.error genericPlanErr

/-- JSON shape of one well-formed plan element. -/
def mkStepJson (s : AgentStep) : JValue :=
  JValue.obj [("thought", JValue.str s.thought), ("tool", JValue.str s.tool),
    ("args", JValue.str s.args)]

/-- JSON shape of a structurally well-formed response for a given step
list. -/
def mkPlanJson (steps : List AgentStep) : JValue :=
  JValue.obj [("plan", JValue.arr (steps.map mkStepJson))]

/-- A decomposition of an argument string into literal chunks and
placeholder tokens, used to quantify over argument strings containing a
known set of tokens. -/
inductive ArgPart where
  | lit (s : List Char)
  | ref (ds : List Char)

/-- The characters a part contributes to the argument string. -/
def renderPart : ArgPart → List Char
  | ArgPart.lit s => s
  | ArgPart.ref ds => tokenOpen ++ ds ++ tokenClose

/-- The argument string assembled from a part list. -/
def renderParts (ps : List ArgPart) : List Char := (ps.map renderPart).flatten

/-- A part whose resolution succeeds: a brace-free literal chunk, or a
token whose digit group is a nonempty digit run referencing a defined,
non-null output. -/
def goodPart (outs : StepOutputs) : ArgPart → Bool
  | ArgPart.lit s => !(s.contains lbrace)
  | ArgPart.ref ds =>
    !ds.isEmpty && ds.all Char.isDigit
      && (lookupOutput outs ((digitsVal ds : Int) - 1)).isSome

/-- The characters a good part contributes to the resolved string: literal
chunks verbatim, tokens replaced by the referenced output. -/
def resolvedPart (outs : StepOutputs) : ArgPart → List Char
  | ArgPart.lit s => s
  | ArgPart.ref ds => ((lookupOutput outs ((digitsVal ds : Int) - 1)).getD "").toList

/-- A concrete environment whose back-ends all succeed, used to
instantiate the theorems at concrete inputs. -/
def env0 : ToolEnv where
  vmix := fun _ => Except.ok "vmix done"
  blender := fun _ => Except.ok "bl"
  video := fun _ => Except.ok ("url", "msg")
  spotify := fun _ => Except.ok "sp"
  twitch := fun _ => Except.ok "tw"
  generateImage := fun _ => Except.ok "b64"
  search := fun _ => Except.ok "text"
  executeCode := fun _ _ _ => Except.ok "cr"

/-- The near-miss string with a non-digit where the digits belong
(two braces, `step_x_output`, two braces). -/
def exNoDigit : String := String.mk (tokenOpen ++ ['x'] ++ tokenClose)

/-- The near-miss string with interior spaces (two braces, space,
`step_1_output`, space, two braces). -/
def exSpaces : String :=
  String.mk [lbrace, lbrace, ' ', 's', 't', 'e', 'p', '_', '1', '_',
    'o', 'u', 't', 'p', 'u', 't', ' ', rbrace, rbrace]

/-- The near-miss string with single braces around `step_1_output`. -/
def exSingle : String :=
  String.mk [lbrace, 's', 't', 'e', 'p', '_', '1', '_',
    'o', 'u', 't', 'p', 'u', 't', rbrace]

/-- The exact placeholder token referencing step 1. -/
def tok1 : String := String.mk (tokenOpen ++ ['1'] ++ tokenClose)

theorem toList_mk (l : List Char) : (String.mk l).toList = l := rfl

theorem except_map_map {ε α β γ : Type} (x : Except ε α) (f : α → β) (g : β → γ) :
    (x.map f).map g = x.map (fun a => g (f a)) := by
  cases x <;> rfl

theorem stripLit_self_append (ls cs : List Char) :
    stripLit ls (ls ++ cs) = some cs := by
  induction ls with
  | nil => rfl
  | cons l ls ih => simpa [stripLit] using ih

theorem matchToken_none_of_head_ne {c : Char} (cs : List Char) (h : c ≠ lbrace) :
    matchToken (c :: cs) = none := by
  unfold matchToken
  simp [tokenOpen, stripLit, h]

theorem takeWhile_append_all {p : Char → Bool} {ds : List Char} (l : List Char)
    (h : ∀ c ∈ ds, p c = true) :
    (ds ++ l).takeWhile p = ds ++ l.takeWhile p := by
  induction ds with
  | nil => simp
  | cons d ds ih =>
    have hd : p d = true := h d (by simp)
    simp only [List.cons_append, List.takeWhile_cons, hd, if_true]
    rw [ih (fun c hc => h c (by simp [hc]))]

theorem dropWhile_append_all {p : Char → Bool} {ds : List Char} (l : List Char)
    (h : ∀ c ∈ ds, p c = true) :
    (ds ++ l).dropWhile p = l.dropWhile p := by
  induction ds with
  | nil => simp
  | cons d ds ih =>
    have hd : p d = true := h d (by simp)
    simp only [List.cons_append, List.dropWhile_cons, hd, if_true]
    exact ih (fun c hc => h c (by simp [hc]))

theorem matchToken_render (ds r : List Char) (hne : ds ≠ [])
    (hds : ∀ c ∈ ds, c.isDigit = true) :
    matchToken (tokenOpen ++ (ds ++ (tokenClose ++ r))) = some (ds, r) := by
  have h1 : (tokenClose ++ r).takeWhile Char.isDigit = [] := by
    simp [tokenClose, List.takeWhile_cons]
  have h2 : (tokenClose ++ r).dropWhile Char.isDigit = tokenClose ++ r := by
    simp [tokenClose, List.dropWhile_cons]
  have hemp : ds.isEmpty = false := by
    cases ds with
    | nil => exact absurd rfl hne
    | cons d ds => rfl
  unfold matchToken
  rw [stripLit_self_append]
  simp only [takeWhile_append_all _ hds, dropWhile_append_all _ hds, h1, h2,
    List.append_nil, stripLit_self_append, hemp]
  rfl

theorem resolveAux_nil (outs : StepOutputs) : resolveAux outs [] = Except.ok [] := by
  rw [resolveAux]

theorem resolveAux_cons_nomatch (outs : StepOutputs) {c : Char} {cs : List Char}
    (h : matchToken (c :: cs) = none) :
    resolveAux outs (c :: cs) = (resolveAux outs cs).map (fun r => c :: r) := by
  rw [resolveAux]
  split
  · rename_i ds rest hm
    rw [h] at hm
    cases hm
  · rfl

theorem resolveAux_cons_tok_ok (outs : StepOutputs) {c : Char}
    {cs ds rest : List Char} {v : String}
    (hm : matchToken (c :: cs) = some (ds, rest))
    (hv : lookupOutput outs ((digitsVal ds : Int) - 1) = some v) :
    resolveAux outs (c :: cs) = (resolveAux outs rest).map (fun r => v.toList ++ r) := by
  rw [resolveAux]
  split
  · rename_i ds' rest' hm'
    rw [hm] at hm'
    injection hm' with hm'
    injection hm' with hd hr
    subst hd
    subst hr
    rw [hv]
  · rename_i hm'
    rw [hm] at hm'
    cases hm'

theorem resolveAux_cons_tok_err (outs : StepOutputs) {c : Char}
    {cs ds rest : List Char}
    (hm : matchToken (c :: cs) = some (ds, rest))
    (hv : lookupOutput outs ((digitsVal ds : Int) - 1) = none) :
    resolveAux outs (c :: cs) = Except.error (resolveErrMsg ds) := by
  rw [resolveAux]
  split
  · rename_i ds' rest' hm'
    rw [hm] at hm'
    injection hm' with hm'
    injection hm' with hd hr
    subst hd
    subst hr
    rw [hv]
  · rename_i hm'
    rw [hm] at hm'
    cases hm'

theorem resolveAux_lit_append (outs : StepOutputs) {s : List Char} (t : List Char)
    (h : lbrace ∉ s) :
    resolveAux outs (s ++ t) = (resolveAux outs t).map (fun r => s ++ r) := by
  induction s with
  | nil =>
    simp only [List.nil_append]
    cases resolveAux outs t <;> rfl
  | cons c s ih =>
    have hc : c ≠ lbrace := by
      intro hc
      exact h (by simp [hc])
    have hs : lbrace ∉ s := fun hm => h (by simp [hm])
    rw [List.cons_append,
      resolveAux_cons_nomatch outs (matchToken_none_of_head_ne _ hc), ih hs,
      except_map_map]
    rfl

theorem resolveAux_tok_ok (outs : StepOutputs) {ds : List Char} (t : List Char)
    {v : String} (hne : ds ≠ []) (hds : ∀ c ∈ ds, c.isDigit = true)
    (hv : lookupOutput outs ((digitsVal ds : Int) - 1) = some v) :
    resolveAux outs (tokenOpen ++ (ds ++ (tokenClose ++ t))) =
      (resolveAux outs t).map (fun r => v.toList ++ r) :=
  resolveAux_cons_tok_ok outs (matchToken_render ds t hne hds) hv

theorem resolveAux_tok_err (outs : StepOutputs) {ds : List Char} (t : List Char)
    (hne : ds ≠ []) (hds : ∀ c ∈ ds, c.isDigit = true)
    (hv : lookupOutput outs ((digitsVal ds : Int) - 1) = none) :
    resolveAux outs (tokenOpen ++ (ds ++ (tokenClose ++ t))) =
      Except.error (resolveErrMsg ds) :=
  resolveAux_cons_tok_err outs (matchToken_render ds t hne hds) hv

theorem renderParts_cons (p : ArgPart) (ps : List ArgPart) :
    renderParts (p :: ps) = renderPart p ++ renderParts ps := by
  simp [renderParts]

theorem resolveAux_parts_append (outs : StepOutputs) (ps : List ArgPart)
    (t : List Char) (h : ∀ p ∈ ps, goodPart outs p = true) :
    resolveAux outs (renderParts ps ++ t) =
      (resolveAux outs t).map
        (fun r => (ps.map (resolvedPart outs)).flatten ++ r) := by
  induction ps with
  | nil =>
    simp only [renderParts, List.map_nil, List.flatten_nil, List.nil_append]
    cases resolveAux outs t <;> rfl
  | cons p ps ih =>
    have hp := h p (by simp)
    have hps : ∀ q ∈ ps, goodPart outs q = true := fun q hq => h q (by simp [hq])
    rw [renderParts_cons, List.append_assoc]
    cases p with
    | lit s =>
      simp only [goodPart] at hp
      simp at hp
      rw [renderPart, resolveAux_lit_append outs _ hp, ih hps, except_map_map]
      cases resolveAux outs t <;> simp [Except.map, resolvedPart, List.append_assoc]
    | ref ds =>
      simp only [goodPart] at hp
      simp at hp
      obtain ⟨⟨hne, hds⟩, hsome⟩ := hp
      obtain ⟨v, hv⟩ := Option.isSome_iff_exists.mp hsome
      rw [renderPart]
      simp only [List.append_assoc]
      rw [resolveAux_tok_ok outs _ hne hds hv, ih hps, except_map_map]
      cases resolveAux outs t <;> simp [Except.map, resolvedPart, hv, List.append_assoc]

theorem resolveAux_no_token (outs : StepOutputs) (cs : List Char)
    (h : containsToken cs = false) : resolveAux outs cs = Except.ok cs := by
  induction cs with
  | nil => exact resolveAux_nil outs
  | cons c cs ih =>
    simp [containsToken] at h
    obtain ⟨h1, h2⟩ := h
    rw [resolveAux_cons_nomatch outs h1, ih h2]
    rfl

theorem dispatchStep_finalAnswer (env : ToolEnv) (plugins : List Plugin)
    (a : String) :
    dispatchStep env plugins "finalAnswer" a = Except.ok (none, [⟨"fux", a⟩]) := by
  rfl

/-- C1: for every outputs map and every argument string assembled from
brace-free literal chunks and placeholder tokens whose referenced outputs
are defined and non-null, resolution replaces each token with the string
form of the referenced output verbatim, leaves every literal chunk
unchanged, and substitutes the several tokens independently in a single
pass (the substituted output text is not rescanned). -/
theorem c1_placeholder_substitution (outs : StepOutputs) (ps : List ArgPart)
    (h : ∀ p ∈ ps, goodPart outs p = true) :
    resolvePlaceholders outs (String.mk (renderParts ps)) =
      Except.ok (String.mk ((ps.map (resolvedPart outs)).flatten)) := by
  unfold resolvePlaceholders
  rw [toList_mk]
  have hp := resolveAux_parts_append outs ps [] h
  rw [List.append_nil] at hp
  rw [hp, resolveAux_nil]
  simp [Except.map]

theorem c1_witness :
    (∀ p ∈ [ArgPart.lit ['x', ':'], ArgPart.ref ['1'], ArgPart.lit ['-'],
        ArgPart.ref ['3']],
      goodPart [some "A", none, some "B"] p = true)
    ∧ resolvePlaceholders [some "A", none, some "B"]
        (String.mk (renderParts [ArgPart.lit ['x', ':'], ArgPart.ref ['1'],
          ArgPart.lit ['-'], ArgPart.ref ['3']]))
      = Except.ok (String.mk (([ArgPart.lit ['x', ':'], ArgPart.ref ['1'],
          ArgPart.lit ['-'], ArgPart.ref ['3']].map
            (resolvedPart [some "A", none, some "B"])).flatten)) :=
  ⟨by decide, c1_placeholder_substitution _ _ (by decide)⟩

/-- C2: if the argument string contains a placeholder token whose
referenced output is absent (never populated, out of range, or null),
resolution aborts with an error naming the unresolved placeholder and the
step that should have produced it, and no resolved string is produced at
all — in particular earlier resolvable tokens of the same argument string
are not observably substituted. -/
theorem c2_unresolved_placeholder_error (outs : StepOutputs)
    (ps : List ArgPart) (ds t : List Char)
    (hps : ∀ p ∈ ps, goodPart outs p = true)
    (hne : ds ≠ []) (hds : ∀ c ∈ ds, c.isDigit = true)
    (hv : lookupOutput outs ((digitsVal ds : Int) - 1) = none) :
    resolvePlaceholders outs
        (String.mk (renderParts ps ++ (tokenOpen ++ (ds ++ (tokenClose ++ t)))))
      = Except.error (resolveErrMsg ds) := by
  unfold resolvePlaceholders
  rw [toList_mk, resolveAux_parts_append outs ps _ hps,
    resolveAux_tok_err outs t hne hds hv]
  rfl

theorem c2_witness :
    (∀ p ∈ [ArgPart.ref ['1']], goodPart [some "A"] p = true)
    ∧ (['2'] : List Char) ≠ []
    ∧ (∀ c ∈ (['2'] : List Char), c.isDigit = true)
    ∧ lookupOutput [some "A"] ((digitsVal ['2'] : Int) - 1) = none
    ∧ resolvePlaceholders [some "A"]
        (String.mk (renderParts [ArgPart.ref ['1']]
          ++ (tokenOpen ++ (['2'] ++ (tokenClose ++ [])))))
      = Except.error (resolveErrMsg ['2']) :=
  ⟨by decide, by decide, by decide, by decide,
    c2_unresolved_placeholder_error _ _ _ _ (by decide) (by decide) (by decide)
      (by decide)⟩

/-- C7: resolution is the identity on argument strings in which the
placeholder pattern matches nowhere. -/
theorem c7_identity_on_plain (outs : StepOutputs) (s : String)
    (h : containsToken s.toList = false) :
    resolvePlaceholders outs s = Except.ok s := by
  unfold resolvePlaceholders
  rw [resolveAux_no_token outs _ h]
  rfl

theorem c7_witness :
    containsToken ("hello world".toList) = false
    ∧ resolvePlaceholders [] "hello world" = Except.ok "hello world" :=
  ⟨by decide, c7_identity_on_plain [] "hello world" (by decide)⟩

/-- C10: substrings that resemble a placeholder without matching the exact
pattern — a non-digit in the digit position, interior spaces, or single
braces — are neither substituted nor treated as an error: resolution
returns them verbatim for every outputs map, and the step then proceeds to
dispatch (here a one-step `finalAnswer` plan runs to completion emitting
the near-miss text unchanged). -/
theorem c10_near_miss_pass_through (outs : StepOutputs) (env : ToolEnv)
    (plugins : List Plugin) (th : String) :
    resolvePlaceholders outs exNoDigit = Except.ok exNoDigit
    ∧ resolvePlaceholders outs exSpaces = Except.ok exSpaces
    ∧ resolvePlaceholders outs exSingle = Except.ok exSingle
    ∧ runPlan env plugins [⟨th, "finalAnswer", exNoDigit⟩]
      = ⟨[progressEntry 0 1 "finalAnswer", ⟨"fux", exNoDigit⟩, completedEntry],
          [none], false⟩ := by
  have k1 : containsToken exNoDigit.toList = false := by decide
  have k2 : containsToken exSpaces.toList = false := by decide
  have k3 : containsToken exSingle.toList = false := by decide
  have r1 : resolvePlaceholders outs exNoDigit = Except.ok exNoDigit := by
    unfold resolvePlaceholders
    rw [resolveAux_no_token outs _ k1]
    rfl
  have r2 : resolvePlaceholders outs exSpaces = Except.ok exSpaces := by
    unfold resolvePlaceholders
    rw [resolveAux_no_token outs _ k2]
    rfl
  have r3 : resolvePlaceholders outs exSingle = Except.ok exSingle := by
    unfold resolvePlaceholders
    rw [resolveAux_no_token outs _ k3]
    rfl
  refine ⟨r1, r2, r3, ?_⟩
  have r1' : resolvePlaceholders [] exNoDigit = Except.ok exNoDigit := by
    unfold resolvePlaceholders
    rw [resolveAux_no_token [] _ k1]
    rfl
  simp [runPlan, execSteps, r1', dispatchStep_finalAnswer]

theorem resolvePlaceholders_tok1_err (outs : StepOutputs)
    (hv : lookupOutput outs 0 = none) :
    resolvePlaceholders outs tok1 = Except.error (resolveErrMsg ['1']) := by
  unfold resolvePlaceholders tok1
  rw [toList_mk]
  have h9 : ((digitsVal ['1'] : Int) - 1) = 0 := by decide
  have he := @resolveAux_tok_err outs ['1'] [] (by decide) (by decide)
    (by rw [h9]; exact hv)
  have heq : tokenOpen ++ ['1'] ++ tokenClose
      = tokenOpen ++ (['1'] ++ (tokenClose ++ [])) := by simp
  rw [heq, he]
  rfl

theorem execSteps_transcript_shape (env : ToolEnv) (plugins : List Plugin)
    (total : Nat) (plan : List AgentStep) :
    ∀ outs : StepOutputs,
      ((execSteps env plugins total plan outs).failed = true →
        ∃ ms e, (execSteps env plugins total plan outs).transcript
          = ms ++ [failEntry e])
      ∧ ((execSteps env plugins total plan outs).failed = false →
        ∃ ms, (execSteps env plugins total plan outs).transcript
          = ms ++ [completedEntry]) := by
  induction plan with
  | nil =>
    intro outs
    constructor
    · intro hf
      simp [execSteps] at hf
    · intro _
      exact ⟨[], rfl⟩
  | cons step rest ih =>
    intro outs
    cases hres : resolvePlaceholders outs step.args with
    | error e =>
      constructor
      · intro _
        simp only [execSteps, hres]
        exact ⟨[progressEntry outs.length total step.tool], e, rfl⟩
      · intro hf
        simp only [execSteps, hres] at hf
        simp at hf
    | ok resolved =>
      cases hdis : dispatchStep env plugins step.tool resolved with
      | error e =>
        constructor
        · intro _
          simp only [execSteps, hres, hdis]
          exact ⟨[progressEntry outs.length total step.tool], e, rfl⟩
        · intro hf
          simp only [execSteps, hres, hdis] at hf
          simp at hf
      | ok om =>
        obtain ⟨out, msgs⟩ := om
        obtain ⟨ihf, ihc⟩ := ih (outs ++ [out])
        constructor
        · intro hf
          simp only [execSteps, hres, hdis] at hf ⊢
          obtain ⟨ms, e, hms⟩ := ihf hf
          refine ⟨progressEntry outs.length total step.tool :: msgs ++ ms, e, ?_⟩
          simp [hms]
        · intro hf
          simp only [execSteps, hres, hdis] at hf ⊢
          obtain ⟨ms, hms⟩ := ihc hf
          refine ⟨progressEntry outs.length total step.tool :: msgs ++ ms, ?_⟩
          simp [hms]

/-- C3: if resolution or dispatch of the step at the cursor raises an
error, the remaining steps are never resolved or dispatched (the result is
the same for every remainder of the plan), the loop emits exactly its
progress entry followed by the single `AGENT MODE: FAILED. Error: <message>`
entry, and the outputs already recorded for the completed steps are left
in place untouched; moreover every failed run's transcript ends in exactly
such a failure entry. -/
theorem c3_first_error_aborts (env : ToolEnv) (plugins : List Plugin)
    (total : Nat) (step : AgentStep) (rest rest' : List AgentStep)
    (outs : StepOutputs) (e : String)
    (h : resolvePlaceholders outs step.args = Except.error e
      ∨ ∃ r, resolvePlaceholders outs step.args = Except.ok r
          ∧ dispatchStep env plugins step.tool r = Except.error e) :
    execSteps env plugins total (step :: rest) outs
      = ⟨[progressEntry outs.length total step.tool, failEntry e], outs, true⟩
    ∧ execSteps env plugins total (step :: rest) outs
      = execSteps env plugins total (step :: rest') outs
    ∧ (∀ (plan : List AgentStep) (outs₀ : StepOutputs),
        (execSteps env plugins total plan outs₀).failed = true →
        ∃ ms e₀, (execSteps env plugins total plan outs₀).transcript
          = ms ++ [failEntry e₀]) := by
  have hhead : ∀ rst : List AgentStep,
      execSteps env plugins total (step :: rst) outs
        = ⟨[progressEntry outs.length total step.tool, failEntry e], outs, true⟩ := by
    intro rst
    rcases h with hres | ⟨r, hres, hdis⟩
    · simp only [execSteps, hres]
    · simp only [execSteps, hres, hdis]
  refine ⟨hhead rest, by rw [hhead rest, hhead rest'], ?_⟩
  intro plan outs₀ hf
  exact (execSteps_transcript_shape env plugins total plan outs₀).1 hf

theorem c3_witness :
    (resolvePlaceholders [] (AgentStep.mk "t" "search" tok1).args
        = Except.error (resolveErrMsg ['1'])
      ∨ ∃ r, resolvePlaceholders [] (AgentStep.mk "t" "search" tok1).args
            = Except.ok r
          ∧ dispatchStep env0 [] (AgentStep.mk "t" "search" tok1).tool r
            = Except.error (resolveErrMsg ['1']))
    ∧ execSteps env0 [] 2 [AgentStep.mk "t" "search" tok1,
        AgentStep.mk "u" "finalAnswer" "bye"] []
      = ⟨[progressEntry 0 2 "search", failEntry (resolveErrMsg ['1'])], [], true⟩ := by
  have hres : resolvePlaceholders [] tok1 = Except.error (resolveErrMsg ['1']) :=
    resolvePlaceholders_tok1_err [] (by decide)
  exact ⟨Or.inl hres,
    (c3_first_error_aborts env0 [] 2 (AgentStep.mk "t" "search" tok1)
      [AgentStep.mk "u" "finalAnswer" "bye"] [] [] (resolveErrMsg ['1'])
      (Or.inl hres)).1⟩

/-- C6: with every step resolving and dispatching successfully, the
executor handles the steps strictly in order: for the step at cursor
`outs.length` it first emits the `[STEP i+1/N] Executing: <tool>` progress
entry, then resolves placeholders, then dispatches, then stores the step's
captured output (possibly null) at index `i` of the accumulator before the
remainder of the plan runs, and an exhausted plan emits the
`AGENT MODE: COMPLETED.` marker; every non-failed run's transcript ends in
that marker. -/
theorem c6_in_order_execution (env : ToolEnv) (plugins : List Plugin)
    (total : Nat) (step : AgentStep) (rest : List AgentStep)
    (outs : StepOutputs) (resolved : String) (out : Option String)
    (msgs : List Msg)
    (hres : resolvePlaceholders outs step.args = Except.ok resolved)
    (hdis : dispatchStep env plugins step.tool resolved = Except.ok (out, msgs)) :
    execSteps env plugins total (step :: rest) outs
      = ⟨progressEntry outs.length total step.tool
            :: msgs ++ (execSteps env plugins total rest (outs ++ [out])).transcript,
          (execSteps env plugins total rest (outs ++ [out])).outputs,
          (execSteps env plugins total rest (outs ++ [out])).failed⟩
    ∧ execSteps env plugins total [] outs = ⟨[completedEntry], outs, false⟩
    ∧ (∀ (plan : List AgentStep) (outs₀ : StepOutputs),
        (execSteps env plugins total plan outs₀).failed = false →
        ∃ ms, (execSteps env plugins total plan outs₀).transcript
          = ms ++ [completedEntry]) := by
  refine ⟨?_, rfl, ?_⟩
  · simp only [execSteps, hres, hdis]
  · intro plan outs₀ hf
    exact (execSteps_transcript_shape env plugins total plan outs₀).2 hf

theorem c6_witness :
    resolvePlaceholders [] (AgentStep.mk "t" "search" "hi").args
      = Except.ok "hi"
    ∧ dispatchStep env0 [] (AgentStep.mk "t" "search" "hi").tool "hi"
      = Except.ok (some "text", [⟨"fux", "text"⟩])
    ∧ execSteps env0 [] 1 [AgentStep.mk "t" "search" "hi"] []
      = ⟨progressEntry 0 1 "search"
            :: [⟨"fux", "text"⟩] ++ (execSteps env0 [] 1 [] ([] ++ [some "text"])).transcript,
          (execSteps env0 [] 1 [] ([] ++ [some "text"])).outputs,
          (execSteps env0 [] 1 [] ([] ++ [some "text"])).failed⟩ := by
  have hres : resolvePlaceholders [] "hi" = Except.ok "hi" := by
    unfold resolvePlaceholders
    rw [resolveAux_no_token [] _ (by decide)]
    rfl
  have hdis : dispatchStep env0 [] "search" "hi"
      = Except.ok (some "text", [⟨"fux", "text"⟩]) := rfl
  exact ⟨hres, hdis,
    (c6_in_order_execution env0 [] 1 (AgentStep.mk "t" "search" "hi") [] []
      "hi" (some "text") [⟨"fux", "text"⟩] hres hdis).1⟩

/-- C4: dispatching a step whose tool name is none of the built-in
identifiers (vmix, blender, video, spotify, twitch, generateImage, search,
finalAnswer) and not the exact name of a tool contributed by any ingested
plugin raises the error `Unknown tool specified by agent: <name>`, and the
run aborts at that step. -/
theorem c4_unknown_tool_error (env : ToolEnv) (plugins : List Plugin)
    (tool args th : String) (total : Nat) (rest : List AgentStep)
    (outs : StepOutputs)
    (hb : isBuiltinTool tool = false)
    (hp : findCustomTool plugins tool = none)
    (ha : containsToken args.toList = false) :
    dispatchStep env plugins tool args
      = Except.error ("Unknown tool specified by agent: " ++ tool)
    ∧ execSteps env plugins total (AgentStep.mk th tool args :: rest) outs
      = ⟨[progressEntry outs.length total tool,
          failEntry ("Unknown tool specified by agent: " ++ tool)], outs, true⟩ := by
  simp [isBuiltinTool] at hb
  obtain ⟨⟨⟨⟨⟨⟨⟨h1, h2⟩, h3⟩, h4⟩, h5⟩, h6⟩, h7⟩, h8⟩ := hb
  have hd : dispatchStep env plugins tool args
      = Except.error ("Unknown tool specified by agent: " ++ tool) := by
    simp [dispatchStep, h1, h2, h3, h4, h5, h6, h7, h8, hp]
  refine ⟨hd, ?_⟩
  have hres : resolvePlaceholders outs args = Except.ok args := by
    unfold resolvePlaceholders
    rw [resolveAux_no_token outs _ ha]
    rfl
  simp only [execSteps, hres, hd]

theorem c4_witness :
    isBuiltinTool "frobnicate" = false
    ∧ findCustomTool [] "frobnicate" = none
    ∧ containsToken ("go".toList) = false
    ∧ dispatchStep env0 [] "frobnicate" "go"
      = Except.error ("Unknown tool specified by agent: " ++ "frobnicate") :=
  ⟨by decide, by decide, by decide,
    (c4_unknown_tool_error env0 [] "frobnicate" "go" "t" 1 [] []
      (by decide) (by decide) (by decide)).1⟩

/-- C9: a successfully dispatched `vmix` or `finalAnswer` step stores null
as its captured output (`currentStepOutput` is never assigned in those
branches), so a later step whose argument references that step's output
fails placeholder resolution and aborts the run even though the referenced
step completed successfully. -/
theorem c9_null_output_builtins (env : ToolEnv) (plugins : List Plugin)
    (a m th1 th2 a1 : String)
    (hvm : env.vmix (splitWs a) = Except.ok m)
    (ha1 : containsToken a1.toList = false) :
    dispatchStep env plugins "vmix" a = Except.ok (none, [⟨"system_core", m⟩])
    ∧ dispatchStep env plugins "finalAnswer" a1 = Except.ok (none, [⟨"fux", a1⟩])
    ∧ runPlan env plugins
        [AgentStep.mk th1 "finalAnswer" a1, AgentStep.mk th2 "search" tok1]
      = ⟨[progressEntry 0 2 "finalAnswer", ⟨"fux", a1⟩,
          progressEntry 1 2 "search", failEntry (resolveErrMsg ['1'])],
          [none], true⟩ := by
  have hv : dispatchStep env plugins "vmix" a
      = match env.vmix (splitWs a) with
        | Except.ok m => Except.ok (none, [⟨"system_core", m⟩])
        | Except.error e => Except.error ("Agent vMix command failed: " ++ e) := rfl
  refine ⟨by rw [hv, hvm], dispatchStep_finalAnswer env plugins a1, ?_⟩
  have hres1 : resolvePlaceholders [] a1 = Except.ok a1 := by
    unfold resolvePlaceholders
    rw [resolveAux_no_token [] _ ha1]
    rfl
  have hres2 : resolvePlaceholders [none] tok1
      = Except.error (resolveErrMsg ['1']) :=
    resolvePlaceholders_tok1_err [none] (by decide)
  simp [runPlan, execSteps, hres1, hres2, dispatchStep_finalAnswer]

theorem c9_witness :
    env0.vmix (splitWs "x") = Except.ok "vmix done"
    ∧ containsToken ("done".toList) = false
    ∧ dispatchStep env0 [] "vmix" "x"
      = Except.ok (none, [⟨"system_core", "vmix done"⟩]) :=
  ⟨rfl, by decide,
    (c9_null_output_builtins env0 [] "x" "vmix done" "t" "u" "done" rfl
      (by decide)).1⟩

/-- C8: iterating the driver loop any number of times never mutates the
plan component of the loop state — every step's `thought`, `tool` and
`args` and the order and number of steps are the same after the run,
whether it completes, fails, or is still in progress; the iteration writes
only the cursor, the `stepOutputs` accumulator, the transcript and the
status. -/
theorem c8_plan_immutable (env : ToolEnv) (plugins : List Plugin)
    (s : LoopState) (n : Nat) :
    ((loopStep env plugins)^[n] s).plan = s.plan
    ∧ ((loopStep env plugins)^[n] s).plan.map AgentStep.tool
      = s.plan.map AgentStep.tool
    ∧ ((loopStep env plugins)^[n] s).plan.length = s.plan.length := by
  have hstep : ∀ t : LoopState, (loopStep env plugins t).plan = t.plan := by
    intro t
    unfold loopStep
    repeat' split
    all_goals rfl
  have hiter : ((loopStep env plugins)^[n] s).plan = s.plan := by
    induction n with
    | zero => rfl
    | succ n ih => rw [Function.iterate_succ_apply', hstep, ih]
  exact ⟨hiter, by rw [hiter], by rw [hiter]⟩

theorem toAgentStep_mkStepJson (s : AgentStep) : toAgentStep (mkStepJson s) = s := by
  cases s
  rfl

theorem allSteps_mkStepJson (l : List AgentStep) :
    allSteps (l.map mkStepJson) = Except.ok true := by
  induction l with
  | nil => rfl
  | cons s l ih => exact ih

/-- C5: `createExecutionPlan` returns the model's plan exactly whenever
the response parses to JSON whose `plan` field is an array all of whose
elements have string-typed `thought`, `tool` and `args` — regardless of
the tool names used, the plan's length, or where (or whether) the
`finalAnswer` sentinel occurs; in every other case (parse failure or any
structural mismatch) it throws the single generic error
`The AI core failed to generate a valid execution plan.`. -/
theorem c5_plan_validation :
    (∀ steps : List AgentStep,
      createExecutionPlan (some (mkPlanJson steps)) = Except.ok steps)
    ∧ createExecutionPlan none = Except.error genericPlanErr
    ∧ (∀ parseResult, (∃ p, createExecutionPlan parseResult = Except.ok p)
        ∨ createExecutionPlan parseResult = Except.error genericPlanErr)
    ∧ createExecutionPlan (some (JValue.obj [("plan", JValue.str "x")]))
      = Except.error genericPlanErr
    ∧ createExecutionPlan (some (JValue.obj [("plan",
        JValue.arr [JValue.obj [("thought", JValue.num 3)]])]))
      = Except.error genericPlanErr := by
  refine ⟨?_, rfl, ?_, rfl, rfl⟩
  · intro steps
    have key : createExecutionPlan (some (mkPlanJson steps))
        = match planOfJson (mkPlanJson steps) with
          | Except.ok p => Except.ok p
          | Except.error _ => Except.error genericPlanErr := rfl
    have key2 : planOfJson (mkPlanJson steps)
        = Except.bind (allSteps (steps.map mkStepJson))
            (fun ok => if ok then Except.ok ((steps.map mkStepJson).map toAgentStep)
              else Except.error "Invalid plan structure received from AI.") := rfl
    rw [key, key2, allSteps_mkStepJson]
    show Except.ok ((steps.map mkStepJson).map toAgentStep) = Except.ok steps
    simp [List.map_map, Function.comp_def, toAgentStep_mkStepJson]
  · intro parseResult
    cases parseResult with
    | none => exact Or.inr rfl
    | some v =>
      have key : createExecutionPlan (some v)
          = match planOfJson v with
            | Except.ok p => Except.ok p
            | Except.error _ => Except.error genericPlanErr := rfl
      cases h : planOfJson v with
      | ok p =>
        exact Or.inl ⟨p, by rw [key, h]⟩
      | error e =>
        exact Or.inr (by rw [key, h])

end FuX
